import Mathlib

/-!
# Route 53 zone association: identifier codec, create/read/delete, destroy check

A shallow embedding of `aws/resource_aws_route53_zone_association.go` and of the
destroy check in `aws/resource_aws_route53_vpc_association_authorization_test.go`.

Go strings are modelled as lists of characters (`Str`).  The only byte-level
operation the code performs on them is splitting on the one-byte separator `:`,
which acts the same on bytes and on characters.

The remote calls are functions of the environment `Env`; the outcome of an
associate call may depend on how many calls came before it, and the calls made
are recorded in a `Trace`.  `WaitForState` is a loop with a poll budget in place
of its wall-clock timeout.  `regexp.Match` is modelled on the part of the pattern
syntax made of literal characters, `.` and a postfix `*`; on other patterns its
outcome is a parameter of the environment, and so is whether a long pattern is
rejected for its size.
-/

namespace Route53

/-- A Go string, as the sequence of its characters. -/
abbrev Str := List Char

/-! ## Values -/

/-- An error value returned by a remote call (`awserr.Error`): `code` is what
`Code()` returns (empty for an error that is no `awserr.Error`), `text` is what
`Error()` returns. -/
structure RemoteErr where
  code : Str
  text : Str
deriving DecidableEq, Repr

/-- Errors of `regexp.Match`, all raised while parsing the pattern. -/
inductive RegexErr where
  | missingRepeatArgument
  | invalidRepeatOp
  | expressionTooLarge
  | other (text : Str)
deriving DecidableEq, Repr

/-- The Go `error` values that flow through the embedded functions. -/
inductive Err where
  /-- An error of a remote call, passed on unchanged. -/
  | remote (e : RemoteErr)
  /-- An error of `regexp.Match`, passed on unchanged. -/
  | regexp (e : RegexErr)
  /-- The value of `fmt.Errorf("Unexpected format of ID (%q), expected ZONEID:VPCID", id)`. -/
  | unexpectedFormat (id : Str)
  /-- A `fmt.Errorf` value with the given message. -/
  | errorf (msg : Str)
  /-- The `TimeoutError` of `WaitForState`. -/
  | timeout
  /-- The `UnexpectedStateError` of `WaitForState`. -/
  | unexpectedState (state : Str)
  /-- The `NotFoundError` of `WaitForState`. -/
  | notFound
  /-- The run-time failure of dereferencing a nil response. -/
  | nilDereference
deriving DecidableEq, Repr

/-! ## Identifier codec -/

/-- Go `strings.Split(s, sep)` for a one-byte separator `sep`: the pieces of `s`
between the occurrences of `sep`; `n` occurrences give `n + 1` pieces, so the
empty string gives one empty piece. -/
def stringsSplit (sep : Char) : Str → List Str
  | [] => [[]]
  | c :: cs =>
    if c = sep then [] :: stringsSplit sep cs
    else
      match stringsSplit sep cs with
      | [] => [[c]]
      | p :: ps => (c :: p) :: ps

/-- The handle `fmt.Sprintf("%s:%s", zoneId, vpcId)` stored by Create. -/
def encodeId (zoneId vpcId : Str) : Str := zoneId ++ ':' :: vpcId

/-- Go `resourceAwsRoute53ZoneAssociationParseId`: the triple
`(zoneId, vpcId, err)` it returns. -/
def resourceAwsRoute53ZoneAssociationParseId (id : Str) : Str × Str × Option Err :=
  match stringsSplit ':' id with
  | [p0, p1] =>
    if p0 = [] ∨ p1 = [] then ([], [], some (Err.unexpectedFormat id))
    else (p0, p1, none)
  | _ => ([], [], some (Err.unexpectedFormat id))

/-! ## The pattern check

`regexp.Match(pattern, b)` of the Go standard library, modelled on a fragment of
its pattern syntax: literal characters, `.` (any character but a newline) and a
postfix `*` on one of these.  A pattern using any other character that
`regexp.QuoteMeta` escapes is outside the fragment.  `regexp/syntax` also
rejects a pattern whose parse tree passes one of its size limits (`expression too
large`); a pattern shorter than `regexpSafeLength` cannot reach them, and for a
longer one whether it is rejected is left to the environment.  -/

/-- The characters special in a Go pattern: those `regexp.QuoteMeta` escapes. -/
def regexpSpecial : Str :=
  ['\\', '.', '+', '*', '?', '(', ')', '|', '[', ']', '{', '}', '^', '$']

/-- One character position of a pattern. -/
inductive Atom where
  | lit (c : Char)
  | anyCharNotNL
deriving DecidableEq, Repr

/-- An atom, possibly under a `*`. -/
structure Piece where
  atom : Atom
  star : Bool
deriving DecidableEq, Repr

/-- The atom a non-special character or `.` stands for. -/
def atomOf (c : Char) : Atom :=
  if c = '.' then Atom.anyCharNotNL else Atom.lit c

/-- Whether the atom accepts the character. -/
def Atom.accepts : Atom → Char → Bool
  | Atom.lit c, x => x == c
  | Atom.anyCharNotNL, x => x != '\n'

/-- Put a parsed piece in front of the parse of the rest of the pattern. -/
def consPiece (p : Piece) :
    Option (Except RegexErr (List Piece)) → Option (Except RegexErr (List Piece))
  | none => none
  | some (Except.error e) => some (Except.error e)
  | some (Except.ok ps) => some (Except.ok (p :: ps))

/-- The parse of a pattern, left to right as `regexp/syntax` does it: `none` when
the pattern leaves the fragment before any error, `error` for a `*` with nothing
to repeat (`missing argument to repetition operator`) or directly after another
`*` (`invalid nested repetition operator`). -/
def regexpParse : Str → Option (Except RegexErr (List Piece))
  | [] => some (Except.ok [])
  | [c] =>
    if c = '*' then some (Except.error RegexErr.missingRepeatArgument)
    else if c ≠ '.' ∧ c ∈ regexpSpecial then none
    else some (Except.ok [⟨atomOf c, false⟩])
  | c :: c2 :: rest =>
    if c = '*' then some (Except.error RegexErr.missingRepeatArgument)
    else if c ≠ '.' ∧ c ∈ regexpSpecial then none
    else if c2 = '*' then
      (if rest.head? = some '*' then some (Except.error RegexErr.invalidRepeatOp)
       else consPiece ⟨atomOf c, true⟩ (regexpParse rest))
    else consPiece ⟨atomOf c, false⟩ (regexpParse (c2 :: rest))

/-- Zero or more characters accepted by `ok`, then `k` on what is left. -/
def starLoop (ok : Char → Bool) (k : Str → Bool) : Str → Bool
  | [] => k []
  | c :: cs => k (c :: cs) || (ok c && starLoop ok k cs)

/-- Whether the pieces match a prefix of the text. -/
def matchHere : List Piece → Str → Bool
  | [], _ => true
  | p :: ps, s =>
    if p.star then starLoop p.atom.accepts (matchHere ps) s
    else
      match s with
      | [] => false
      | c :: cs => p.atom.accepts c && matchHere ps cs

/-- Whether the pieces match somewhere in the text (`regexp.Match` is unanchored). -/
def matchAnywhere (ps : List Piece) : Str → Bool
  | [] => matchHere ps []
  | c :: cs => matchHere ps (c :: cs) || matchAnywhere ps cs

/-- A pattern length below which none of the size limits of `regexp/syntax` can
be reached: the limits are on the nodes (at most one a character, and two more),
the height and the runes of the parse tree, and the least of them is 1000. -/
def regexpSafeLength : Nat := 512

/-- The outcome of `regexp.Match(pattern, s)` on the fragment; `none` outside it.
`sizeLimit pattern` is the error, if any, with which the library rejects a
pattern for its size; it is consulted for patterns of `regexpSafeLength`
characters or more only. -/
def regexpMatchFragment (sizeLimit : Str → Option RegexErr) (pattern s : Str) :
    Option (Except RegexErr Bool) :=
  match regexpParse pattern with
  | none => none
  | some r =>
    match (if pattern.length < regexpSafeLength then none else sizeLimit pattern) with
    | some e => some (Except.error e)
    | none =>
      match r with
      | Except.error e => some (Except.error e)
      | Except.ok ps => some (Except.ok (matchAnywhere ps s))

/-- Go `regexp.Match(pattern, s)`, the pair `(matched, err)` it returns: the
fragment model where it applies, and `outside` (the library's behaviour on the
rest of the syntax, left open) elsewhere.  As in the library, an error comes
with `matched = false`. -/
def regexpMatch (sizeLimit : Str → Option RegexErr)
    (outside : Str → Str → Except RegexErr Bool) (pattern s : Str) :
    Bool × Option RegexErr :=
  match (regexpMatchFragment sizeLimit pattern s).getD (outside pattern s) with
  | Except.ok b => (b, none)
  | Except.error e => (false, some e)

/-! ## Resource data, requests and the environment -/

/-- The fields of `*schema.ResourceData` the resource uses. -/
structure ResourceData where
  id : Str
  zone_id : Str
  vpc_id : Str
  vpc_region : Str
  cross_account : Bool
deriving DecidableEq, Repr

/-- Go `route53.VPC`. -/
structure VPC where
  VPCId : Str
  VPCRegion : Str
deriving DecidableEq, Repr

/-- Go `route53.AssociateVPCWithHostedZoneInput`. -/
structure AssociateVPCWithHostedZoneInput where
  HostedZoneId : Str
  VPC : VPC
  Comment : Str
deriving DecidableEq, Repr

/-- Go `route53.DisassociateVPCFromHostedZoneInput`. -/
structure DisassociateVPCFromHostedZoneInput where
  HostedZoneId : Str
  VPC : VPC
  Comment : Str
deriving DecidableEq, Repr

/-- What a refresh function returns: `result` is `none` for a nil result. -/
structure RefreshResult where
  result : Option Bool
  state : Str
  err : Option Err
deriving DecidableEq, Repr

/-- The collaborators of the resource functions. -/
structure Env where
  /-- The region of the client, `meta.(*AWSClient).region`. -/
  region : Str
  /-- The remote call `r53.AssociateVPCWithHostedZone`: the outcome of the call
  made after `n` earlier ones, the change id of the response on success. -/
  associateVPCWithHostedZone :
    Nat → AssociateVPCWithHostedZoneInput → Except RemoteErr Str
  /-- The remote call `conn.DisassociateVPCFromHostedZone`: its error, if any. -/
  disassociateVPCFromHostedZone : DisassociateVPCFromHostedZoneInput → Option RemoteErr
  /-- The behaviour of `regexp.Match` outside the modelled fragment. -/
  regexpOutside : Str → Str → Except RegexErr Bool
  /-- The error, if any, with which `regexp.Match` rejects a long pattern for
  its size. -/
  regexpSizeLimit : Str → Option RegexErr
  /-- The helper `cleanChangeID`, defined elsewhere in the provider. -/
  cleanChangeID : Str → Str
  /-- The change tracker `resourceAwsGoRoute53Wait`, defined elsewhere in the
  provider: what it returns for the given change id after `n` earlier polls. -/
  resourceAwsGoRoute53Wait : Nat → Str → RefreshResult
  /-- The number of refresh calls that complete before the timeout of the wait. -/
  maxPolls : Nat

/-- The remote calls made so far. -/
structure Trace where
  associateCalls : List AssociateVPCWithHostedZoneInput
  getChangeCalls : List Str
deriving DecidableEq, Repr

/-! ## Waiting for a state -/

/-- The fields of `resource.StateChangeConf` that decide the outcome; `Delay`,
`Timeout` and `MinTimeout` are represented by the poll budget. -/
structure StateChangeConf where
  pending : List Str
  target : List Str
  notFoundChecks : Nat
  refresh : Trace → RefreshResult × Trace

/-- The loop of `StateChangeConf.WaitForState` with a poll budget: the error it
returns (`none` on reaching a target state) and the trace.  A refresh error ends
the wait with that error; a nil result counts towards `NotFoundChecks`; a target
state ends the wait; a pending state polls again; any other state is an
`UnexpectedStateError`; an exhausted budget is the `TimeoutError`. -/
def waitForState (conf : StateChangeConf) : Nat → Nat → Trace → Option Err × Trace
  | 0, _, tr => (some Err.timeout, tr)
  | fuel + 1, notfoundTick, tr =>
    match conf.refresh tr with
    | (r, tr1) =>
      match r.err with
      | some e => (some e, tr1)
      | none =>
        match r.result with
        | none =>
          if notfoundTick + 1 > conf.notFoundChecks then (some Err.notFound, tr1)
          else waitForState conf fuel (notfoundTick + 1) tr1
        | some _ =>
          if r.state ∈ conf.target then (none, tr1)
          else if r.state ∈ conf.pending then waitForState conf fuel 0 tr1
          else if conf.pending ≠ [] then (some (Err.unexpectedState r.state), tr1)
          else waitForState conf fuel 0 tr1

/-! ## Create, Read, Delete -/

/-- The pattern `exists` built in Create. -/
def existsPattern (vpc_id zone_id : Str) : Str :=
  "ConflictingDomainExists: The VPC ".toList ++ vpc_id ++
    " .* associated with the hosted zone ".toList ++ zone_id ++ " .*".toList

/-- The request `req` built in Create. -/
def associateRequest (env : Env) (d : ResourceData) : AssociateVPCWithHostedZoneInput :=
  let req : AssociateVPCWithHostedZoneInput :=
    { HostedZoneId := d.zone_id
      VPC := { VPCId := d.vpc_id, VPCRegion := env.region }
      Comment := "Managed by Terraform".toList }
  if d.vpc_region ≠ [] then
    { req with VPC := { req.VPC with VPCRegion := d.vpc_region } }
  else req

/-- Go `resourceAwsRoute53ZoneAssociationRead`. -/
def resourceAwsRoute53ZoneAssociationRead (d : ResourceData) : Option Err × ResourceData :=
  match resourceAwsRoute53ZoneAssociationParseId d.id with
  | (_, _, some err) => (some err, d)
  | (zoneID, vpcID, none) => (none, { d with vpc_id := vpcID, zone_id := zoneID })

/-- The refresh function of the cross-account branch of Create. -/
def crossAccountRefresh (env : Env) (req : AssociateVPCWithHostedZoneInput)
    (existsPat : Str) (tr : Trace) : RefreshResult × Trace :=
  let tr1 : Trace := { tr with associateCalls := tr.associateCalls ++ [req] }
  match env.associateVPCWithHostedZone tr.associateCalls.length req with
  | Except.ok _ => (⟨some true, "PENDING".toList, none⟩, tr1)
  | Except.error apiErr =>
    match regexpMatch env.regexpSizeLimit env.regexpOutside existsPat apiErr.text with
    | (true, some compileErr) => (⟨none, "UNKNOWN".toList, some (Err.regexp compileErr)⟩, tr1)
    | (true, none) => (⟨some true, "INSYNC".toList, none⟩, tr1)
    | (false, _) => (⟨none, "UNKNOWN".toList, some (Err.remote apiErr)⟩, tr1)

/-- The refresh function of the same-account branch of Create; `resp` is the
change id of the response of the first call, `none` for a nil response. -/
def sameAccountRefresh (env : Env) (resp : Option Str) (tr : Trace) : RefreshResult × Trace :=
  match resp with
  | none => (⟨none, [], some Err.nilDereference⟩, tr)
  | some changeId =>
    let id := env.cleanChangeID changeId
    (env.resourceAwsGoRoute53Wait tr.getChangeCalls.length id,
      { tr with getChangeCalls := tr.getChangeCalls ++ [id] })

/-- The `StateChangeConf` built in Create. -/
def createWaitConf (env : Env) (d : ResourceData) (resp : Option Str) : StateChangeConf :=
  { pending := ["PENDING".toList]
    target := ["INSYNC".toList]
    notFoundChecks := 20
    refresh :=
      if d.cross_account then
        crossAccountRefresh env (associateRequest env d) (existsPattern d.vpc_id d.zone_id)
      else sameAccountRefresh env resp }

/-- The wait of Create, started after the first associate call. -/
def createWait (env : Env) (d : ResourceData) (resp : Option Str) : Option Err × Trace :=
  waitForState (createWaitConf env d resp) env.maxPolls 0 ⟨[associateRequest env d], []⟩

/-- Create from `d.SetId` on (lines 98 to 147 of the source): store the id,
wait, and on success read back. -/
def createAfterAssociate (env : Env) (d : ResourceData) (resp : Option Str) :
    Option Err × ResourceData × Trace :=
  let req := associateRequest env d
  let d1 : ResourceData := { d with id := encodeId req.HostedZoneId req.VPC.VPCId }
  match createWait env d resp with
  | (some err, tr) => (some err, d1, tr)
  | (none, tr) =>
    match resourceAwsRoute53ZoneAssociationRead d1 with
    | (err, d2) => (err, d2, tr)

/-- Create up to the check of the first associate call (lines 83 to 96 of the
source, the request being `associateRequest`): `error` with the error
Create returns there, `ok` with the change id of the response (`none` when the
call failed and the failure was ignored) when Create goes on. -/
def createInitialCall (env : Env) (d : ResourceData) : Except Err (Option Str) :=
  match env.associateVPCWithHostedZone 0 (associateRequest env d) with
  | Except.error apiErr =>
    if d.cross_account then
      match regexpMatch env.regexpSizeLimit env.regexpOutside (existsPattern d.vpc_id d.zone_id) apiErr.text with
      | (_, some compileErr) => Except.error (Err.regexp compileErr)
      | (false, none) => Except.error (Err.remote apiErr)
      | (true, none) => Except.ok none
    else Except.error (Err.remote apiErr)
  | Except.ok changeId => Except.ok (some changeId)

/-- Go `resourceAwsRoute53ZoneAssociationCreate`: the error it returns, the
resource data it leaves, and the remote calls it made. -/
def resourceAwsRoute53ZoneAssociationCreate (env : Env) (d : ResourceData) :
    Option Err × ResourceData × Trace :=
  match createInitialCall env d with
  | Except.error err => (some err, d, ⟨[associateRequest env d], []⟩)
  | Except.ok resp => createAfterAssociate env d resp

/-- Go `resourceAwsRoute53ZoneAssociationDelete`: the error it returns and the
disassociate calls it made. -/
def resourceAwsRoute53ZoneAssociationDelete (env : Env) (d : ResourceData) :
    Option Err × List DisassociateVPCFromHostedZoneInput :=
  match resourceAwsRoute53ZoneAssociationParseId d.id with
  | (_, _, some err) => (some err, [])
  | (zoneID, vpcID, none) =>
    let req : DisassociateVPCFromHostedZoneInput :=
      { HostedZoneId := zoneID
        VPC := { VPCId := vpcID, VPCRegion := d.vpc_region }
        Comment := "Managed by Terraform".toList }
    match env.disassociateVPCFromHostedZone req with
    | some err =>
      (some (Err.errorf ("error disassociating Route 53 Hosted Zone (".toList ++ zoneID ++
        ") Association (".toList ++ vpcID ++ "): ".toList ++ err.text)), [req])
    | none => (none, [req])

/-! ## The destroy check of the authorization test -/

/-- A resource of the Terraform state: its type and `Primary.ID`. -/
structure ResourceState where
  type : Str
  primaryID : Str
deriving DecidableEq, Repr

/-- The constant `route53.ErrCodeNoSuchHostedZone`. -/
def ErrCodeNoSuchHostedZone : Str := "NoSuchHostedZone".toList

/-- Modelled from the spec: the helper `isAWSErr` is defined elsewhere in the
provider; it reports whether the error is the remote system's error of the given
kind (here: the zone is reported not found) whose message holds `message`. -/
def isAWSErr (err : RemoteErr) (code message : Str) : Bool :=
  err.code == code && decide (message <:+: err.text)

/-- Go `testAccCheckRoute53VPCAssociationAuthorizationDestroy` over the resources
of the root module in the order the `range` loop visits them; `list` is the
remote call `conn.ListVPCAssociationAuthorizations`, by zone id. -/
def testAccCheckRoute53VPCAssociationAuthorizationDestroy
    (list : Str → Except RemoteErr (List Str)) : List ResourceState → Option Err
  | [] => none
  | rs :: rest =>
    if rs.type ≠ "aws_route53_vpc_association_authorization".toList then
      testAccCheckRoute53VPCAssociationAuthorizationDestroy list rest
    else
      match resourceAwsRoute53ZoneAssociationParseId rs.primaryID with
      | (_, _, some err) => some err
      | (zone_id, vpc_id, none) =>
        match list zone_id with
        | Except.error err =>
          if isAWSErr err ErrCodeNoSuchHostedZone [] then none
          else some (Err.remote err)
        | Except.ok vpcs =>
          if vpc_id ∈ vpcs then
            some (Err.errorf ("VPC association authorization for zone ".toList ++ zone_id ++
              " with ".toList ++ vpc_id ++ " still exists".toList))
          else testAccCheckRoute53VPCAssociationAuthorizationDestroy list rest

/-- The pieces of a run of literal characters. -/
def litPieces (l : Str) : List Piece :=
  l.map (fun c => ⟨Atom.lit c, false⟩)

/-- The piece of `.*`. -/
def dotStar : Piece := ⟨Atom.anyCharNotNL, true⟩

/-- The text the pattern asks for around the VPC id. -/
def conflictPrefix (vpc_id : Str) : Str :=
  "ConflictingDomainExists: The VPC ".toList ++ vpc_id ++ " ".toList

/-- The text the pattern asks for around the zone id. -/
def conflictSuffix (zone_id : Str) : Str :=
  " associated with the hosted zone ".toList ++ zone_id ++ " ".toList

/-! ## Concrete inputs -/

/-- A newly declared same-account association of zone `Z1` and VPC `vpc-1`. -/
def sameAccountData : ResourceData :=
  { id := [], zone_id := "Z1".toList, vpc_id := "vpc-1".toList, vpc_region := [],
    cross_account := false }

/-- A newly declared cross-account association of zone `Z1` and VPC `vpc-1`. -/
def crossAccountData : ResourceData :=
  { sameAccountData with cross_account := true }

/-- The remote system's conflict error for VPC `vpc-1` and zone `Z1`. -/
def conflictErr : RemoteErr :=
  { code := "ConflictingDomainExists".toList
    text := ("ConflictingDomainExists: The VPC vpc-1 in region us-east-1 has already " ++
      "been associated with the hosted zone Z1 with the same domain name").toList }

/-- Some other error of the remote system. -/
def throttlingErr : RemoteErr :=
  { code := "Throttling".toList, text := "Throttling: Rate exceeded".toList }

/-- An environment whose associate calls all succeed and whose change tracker
reports PENDING on the first poll and INSYNC from then on. -/
def insyncEnv : Env :=
  { region := "us-east-1".toList
    associateVPCWithHostedZone := fun _ _ => Except.ok "/change/C1".toList
    disassociateVPCFromHostedZone := fun _ => none
    regexpOutside := fun _ _ => Except.ok false
    regexpSizeLimit := fun _ => none
    cleanChangeID := fun id => id.drop 8
    resourceAwsGoRoute53Wait := fun n _ =>
      if n = 0 then ⟨some true, "PENDING".toList, none⟩
      else ⟨some true, "INSYNC".toList, none⟩
    maxPolls := 2 }

/-- An environment whose first three associate calls succeed and whose fourth
is rejected with the conflict error. -/
def convergingEnv : Env :=
  { insyncEnv with
    associateVPCWithHostedZone := fun n _ =>
      if n < 3 then Except.ok "/change/C1".toList else Except.error conflictErr
    maxPolls := 5 }

/-- An environment whose associate calls are all rejected with the conflict error. -/
def conflictEnv : Env :=
  { insyncEnv with
    associateVPCWithHostedZone := fun _ _ => Except.error conflictErr
    maxPolls := 5 }

/-- An environment whose associate calls are all rejected with another error. -/
def throttlingEnv : Env :=
  { insyncEnv with
    associateVPCWithHostedZone := fun _ _ => Except.error throttlingErr
    maxPolls := 5 }

/-- An environment whose associate calls all succeed, so that a cross-account
wait never sees the conflict, and whose timeout leaves room for three polls. -/
def neverConvergingEnv : Env :=
  { insyncEnv with maxPolls := 3 }

/-- A cross-account association whose zone id makes the pattern malformed. -/
def malformedPatternData : ResourceData :=
  { crossAccountData with zone_id := "Z1**".toList }

/-- An environment whose first associate call succeeds and whose later ones are
rejected with the conflict error. -/
def lateConflictEnv : Env :=
  { insyncEnv with
    associateVPCWithHostedZone := fun n _ =>
      if n = 0 then Except.ok "/change/C1".toList else Except.error conflictErr
    maxPolls := 5 }

/-- A cross-account association whose VPC id holds a `.`. -/
def dotPatternData : ResourceData :=
  { crossAccountData with vpc_id := "vpc.1".toList }

/-- Two authorization resources, in the order the loop of the destroy check
visits them. -/
def destroyCheckResources : List ResourceState :=
  [ { type := "aws_route53_vpc_association_authorization".toList
      primaryID := "Z1:vpc-1".toList },
    { type := "aws_route53_vpc_association_authorization".toList
      primaryID := "Z2:vpc-2".toList } ]

/-- A listing call that still lists `vpc-2` for zone `Z2` and reports every
other zone as not found. -/
def destroyCheckListing (zone : Str) : Except RemoteErr (List Str) :=
  if zone = "Z2".toList then Except.ok ["vpc-2".toList]
  else Except.error
    { code := "NoSuchHostedZone".toList
      text := "NoSuchHostedZone: No hosted zone found with ID: Z1".toList }

/-- A stored association `Z1:vpc-1` in region `us-west-2`. -/
def storedData : ResourceData :=
  { id := "Z1:vpc-1".toList, zone_id := "Z1".toList, vpc_id := "vpc-1".toList,
    vpc_region := "us-west-2".toList, cross_account := false }

/-! ### Lemmas on splitting -/

theorem stringsSplit_ne_nil (sep : Char) (s : Str) : stringsSplit sep s ≠ [] := by
  cases s with
  | nil => simp [stringsSplit]
  | cons c cs =>
    simp only [stringsSplit]
    split
    · simp
    · split <;> simp

theorem stringsSplit_of_not_mem (sep : Char) (s : Str) (h : sep ∉ s) :
    stringsSplit sep s = [s] := by
  induction s with
  | nil => rfl
  | cons c cs ih =>
    have hc : c ≠ sep := fun e => h (by simp [e])
    have hcs : sep ∉ cs := fun e => h (by simp [e])
    simp [stringsSplit, hc, ih hcs]

theorem stringsSplit_append_sep (sep : Char) (a b : Str) (h : sep ∉ a) :
    stringsSplit sep (a ++ sep :: b) = a :: stringsSplit sep b := by
  induction a with
  | nil => simp [stringsSplit]
  | cons c cs ih =>
    have hc : c ≠ sep := fun e => h (by simp [e])
    have hcs : sep ∉ cs := fun e => h (by simp [e])
    simp [stringsSplit, hc, ih hcs]

/-- Joining the pieces with the separator gives the string back, and no piece
holds the separator. -/
theorem stringsSplit_spec (sep : Char) (s : Str) :
    (∀ p ∈ stringsSplit sep s, sep ∉ p) ∧
      s = List.intercalate [sep] (stringsSplit sep s) := by
  induction s with
  | nil => simp [stringsSplit, List.intercalate]
  | cons c cs ih =>
    obtain ⟨ih1, ih2⟩ := ih
    simp only [stringsSplit]
    by_cases hc : c = sep
    · subst hc
      simp only [if_true]
      refine ⟨?_, ?_⟩
      · intro p hp
        rcases List.mem_cons.1 hp with h | h
        · subst h; simp
        · exact ih1 p h
      · have hne := stringsSplit_ne_nil c cs
        cases hsp : stringsSplit c cs with
        | nil => exact absurd hsp hne
        | cons q qs =>
          rw [hsp] at ih2
          rw [ih2]
          simp [List.intercalate, List.intersperse]
    · simp only [hc, if_false]
      cases hsp : stringsSplit sep cs with
      | nil => exact absurd hsp (stringsSplit_ne_nil sep cs)
      | cons q qs =>
        rw [hsp] at ih1 ih2
        refine ⟨?_, ?_⟩
        · intro p hp
          rcases List.mem_cons.1 hp with h | h
          · subst h
            have hq := ih1 q (by simp)
            intro hm
            rcases List.mem_cons.1 hm with e | e
            · exact hc e.symm
            · exact hq e
          · exact ih1 p (by simp [h])
        · rw [ih2]
          cases qs <;> simp [List.intercalate, List.intersperse]


/-! ### The identifier codec -/

theorem parseId_encodeId (z v : Str) (hz : z ≠ []) (hv : v ≠ [])
    (hcz : ':' ∉ z) (hcv : ':' ∉ v) :
    resourceAwsRoute53ZoneAssociationParseId (encodeId z v) = (z, v, none) := by
  unfold resourceAwsRoute53ZoneAssociationParseId encodeId
  rw [stringsSplit_append_sep ':' z v hcz, stringsSplit_of_not_mem ':' v hcv]
  simp [hz, hv]

theorem parseId_ok_split (h z v : Str)
    (hp : resourceAwsRoute53ZoneAssociationParseId h = (z, v, none)) :
    stringsSplit ':' h = [z, v] ∧ z ≠ [] ∧ v ≠ [] := by
  unfold resourceAwsRoute53ZoneAssociationParseId at hp
  split at hp
  · rename_i p0 p1 hsp
    split at hp
    · simp at hp
    · rename_i hne
      simp only [Prod.mk.injEq, and_true] at hp
      obtain ⟨h0, h1⟩ := hp
      subst h0 h1
      simp only [not_or] at hne
      exact ⟨hsp, hne.1, hne.2⟩
  · simp at hp

theorem parseId_ok_iff (h z v : Str) :
    resourceAwsRoute53ZoneAssociationParseId h = (z, v, none) ↔
      h = encodeId z v ∧ z ≠ [] ∧ v ≠ [] ∧ ':' ∉ z ∧ ':' ∉ v := by
  constructor
  · intro hp
    obtain ⟨hsp, hz, hv⟩ := parseId_ok_split h z v hp
    obtain ⟨hmem, hjoin⟩ := stringsSplit_spec ':' h
    rw [hsp] at hmem hjoin
    refine ⟨?_, hz, hv, hmem z (by simp), hmem v (by simp)⟩
    rw [hjoin]
    simp [encodeId, List.intercalate, List.intersperse]
  · rintro ⟨rfl, hz, hv, hcz, hcv⟩
    exact parseId_encodeId z v hz hv hcz hcv

theorem parseId_err_or_ok (h : Str) :
    resourceAwsRoute53ZoneAssociationParseId h = ([], [], some (Err.unexpectedFormat h)) ∨
      ∃ z v, resourceAwsRoute53ZoneAssociationParseId h = (z, v, none) := by
  unfold resourceAwsRoute53ZoneAssociationParseId
  split
  · split
    · exact Or.inl rfl
    · exact Or.inr ⟨_, _, rfl⟩
  · exact Or.inl rfl

theorem count_sep_encodeId (z v : Str) (hcz : ':' ∉ z) (hcv : ':' ∉ v) :
    (encodeId z v).count ':' = 1 := by
  simp [encodeId, List.count_eq_zero_of_not_mem hcz, List.count_eq_zero_of_not_mem hcv]

/-- C1: the handle built by Create from a non-empty zone id and a non-empty VPC
id, neither holding `:`, is decoded by `resourceAwsRoute53ZoneAssociationParseId`
without error to exactly that pair. -/
theorem C1_parseId_roundtrip (z v : Str) (hz : z ≠ []) (hv : v ≠ [])
    (hcz : ':' ∉ z) (hcv : ':' ∉ v) :
    resourceAwsRoute53ZoneAssociationParseId (z ++ ":".toList ++ v) = (z, v, none) := by
  have h := parseId_encodeId z v hz hv hcz hcv
  simpa [encodeId] using h

theorem C1_parseId_roundtrip_witness :
    resourceAwsRoute53ZoneAssociationParseId ("Z1".toList ++ ":".toList ++ "vpc-1".toList)
      = ("Z1".toList, "vpc-1".toList, none) :=
  C1_parseId_roundtrip "Z1".toList "vpc-1".toList (by decide) (by decide) (by decide) (by decide)

/-- C2: `resourceAwsRoute53ZoneAssociationParseId` returns an error, with empty
components, exactly when splitting the handle on `:` does not give exactly two
non-empty parts; the five malformed handles of the specification fail; and a
handle that decodes holds exactly one `:` and is the zone id, `:`, the VPC id. -/
theorem C2_parseId_malformed :
    (∀ h : Str,
      ((resourceAwsRoute53ZoneAssociationParseId h).2.2 ≠ none ↔
        ¬ ∃ p0 p1, stringsSplit ':' h = [p0, p1] ∧ p0 ≠ [] ∧ p1 ≠ []) ∧
      ((resourceAwsRoute53ZoneAssociationParseId h).2.2 ≠ none →
        resourceAwsRoute53ZoneAssociationParseId h =
          ([], [], some (Err.unexpectedFormat h))) ∧
      (∀ z v, resourceAwsRoute53ZoneAssociationParseId h = (z, v, none) →
        h.count ':' = 1 ∧ h = z ++ ":".toList ++ v ∧ z ≠ [] ∧ v ≠ [])) ∧
    (resourceAwsRoute53ZoneAssociationParseId "".toList).2.2 ≠ none ∧
    (resourceAwsRoute53ZoneAssociationParseId "onlyzone".toList).2.2 ≠ none ∧
    (resourceAwsRoute53ZoneAssociationParseId "a:b:c".toList).2.2 ≠ none ∧
    (resourceAwsRoute53ZoneAssociationParseId ":vpc".toList).2.2 ≠ none ∧
    (resourceAwsRoute53ZoneAssociationParseId "zone:".toList).2.2 ≠ none := by
  refine ⟨?_, by decide, by decide, by decide, by decide, by decide⟩
  intro h
  refine ⟨?_, ?_, ?_⟩
  · constructor
    · rintro herr ⟨p0, p1, hsp, h0, h1⟩
      apply herr
      unfold resourceAwsRoute53ZoneAssociationParseId
      rw [hsp]
      simp [h0, h1]
    · intro hno herr
      rcases parseId_err_or_ok h with he | ⟨z, v, hok⟩
      · rw [he] at herr
        simp at herr
      · obtain ⟨hsp, hz, hv⟩ := parseId_ok_split h z v hok
        exact hno ⟨z, v, hsp, hz, hv⟩
  · intro herr
    rcases parseId_err_or_ok h with he | ⟨z, v, hok⟩
    · exact he
    · rw [hok] at herr
      exact absurd rfl herr
  · intro z v hok
    obtain ⟨rfl, hz, hv, hcz, hcv⟩ := (parseId_ok_iff h z v).1 hok
    refine ⟨count_sep_encodeId z v hcz hcv, ?_, hz, hv⟩
    simp [encodeId]


/-! ### The wait -/

theorem pending_ne_insync : "PENDING".toList ≠ "INSYNC".toList := by decide

/-- One poll that reports a target state ends the wait with success. -/
theorem waitForState_target (conf : StateChangeConf) (fuel tick : Nat) (tr tr1 : Trace)
    (r : RefreshResult) (b : Bool) (hr : conf.refresh tr = (r, tr1)) (he : r.err = none)
    (hres : r.result = some b) (ht : r.state ∈ conf.target) :
    waitForState conf (fuel + 1) tick tr = (none, tr1) := by
  simp [waitForState, hr, he, hres, ht]

/-- One poll that reports a pending state, not a target state, polls again. -/
theorem waitForState_pending (conf : StateChangeConf) (fuel tick : Nat) (tr tr1 : Trace)
    (r : RefreshResult) (b : Bool) (hr : conf.refresh tr = (r, tr1)) (he : r.err = none)
    (hres : r.result = some b) (ht : r.state ∉ conf.target) (hp : r.state ∈ conf.pending) :
    waitForState conf (fuel + 1) tick tr = waitForState conf fuel 0 tr1 := by
  simp [waitForState, hr, he, hres, ht, hp]

/-- One poll that returns an error ends the wait with that error. -/
theorem waitForState_error (conf : StateChangeConf) (fuel tick : Nat) (tr tr1 : Trace)
    (r : RefreshResult) (e : Err) (hr : conf.refresh tr = (r, tr1)) (he : r.err = some e) :
    waitForState conf (fuel + 1) tick tr = (some e, tr1) := by
  simp [waitForState, hr, he]

/-- A wait whose budget is used up ends with the timeout error. -/
theorem waitForState_zero (conf : StateChangeConf) (tick : Nat) (tr : Trace) :
    waitForState conf 0 tick tr = (some Err.timeout, tr) := rfl

/-! ### Create on the same-account path -/

theorem read_encodeId (d : ResourceData) (z v : Str) (hz : z ≠ []) (hv : v ≠ [])
    (hcz : ':' ∉ z) (hcv : ':' ∉ v) (hid : d.id = encodeId z v) :
    resourceAwsRoute53ZoneAssociationRead d = (none, { d with vpc_id := v, zone_id := z }) := by
  unfold resourceAwsRoute53ZoneAssociationRead
  rw [hid, parseId_encodeId z v hz hv hcz hcv]

theorem associateRequest_ids (env : Env) (d : ResourceData) :
    (associateRequest env d).HostedZoneId = d.zone_id ∧
      (associateRequest env d).VPC.VPCId = d.vpc_id := by
  unfold associateRequest
  split <;> simp

theorem create_same_account (env : Env) (d : ResourceData) (C : Str)
    (hz : d.zone_id ≠ []) (hv : d.vpc_id ≠ [])
    (hcz : ':' ∉ d.zone_id) (hcv : ':' ∉ d.vpc_id)
    (hcross : d.cross_account = false)
    (hassoc : env.associateVPCWithHostedZone 0 (associateRequest env d) = Except.ok C)
    (hp0 : env.resourceAwsGoRoute53Wait 0 (env.cleanChangeID C)
      = ⟨some true, "PENDING".toList, none⟩)
    (hp1 : env.resourceAwsGoRoute53Wait 1 (env.cleanChangeID C)
      = ⟨some true, "INSYNC".toList, none⟩)
    (hpolls : 2 ≤ env.maxPolls) :
    resourceAwsRoute53ZoneAssociationCreate env d =
      (none, { d with id := encodeId d.zone_id d.vpc_id },
        ⟨[associateRequest env d], [env.cleanChangeID C, env.cleanChangeID C]⟩) := by
  obtain ⟨n, hn⟩ : ∃ n, env.maxPolls = n + 1 + 1 := ⟨env.maxPolls - 2, by omega⟩
  obtain ⟨hreqz, hreqv⟩ := associateRequest_ids env d
  have hwait : createWait env d (some C) =
      (none, ⟨[associateRequest env d], [env.cleanChangeID C, env.cleanChangeID C]⟩) := by
    unfold createWait
    rw [hn]
    rw [waitForState_pending (createWaitConf env d (some C)) (n + 1) 0
      ⟨[associateRequest env d], []⟩ ⟨[associateRequest env d], [env.cleanChangeID C]⟩
      ⟨some true, "PENDING".toList, none⟩ true
      (by simp [createWaitConf, hcross, sameAccountRefresh, hp0]) rfl rfl
      (by simp [createWaitConf, pending_ne_insync]) (by simp [createWaitConf])]
    exact waitForState_target (createWaitConf env d (some C)) n 0 _ _
      ⟨some true, "INSYNC".toList, none⟩ true
      (by simp [createWaitConf, hcross, sameAccountRefresh, hp1]) rfl rfl
      (by simp [createWaitConf])
  unfold resourceAwsRoute53ZoneAssociationCreate createInitialCall
  simp only [hassoc]
  unfold createAfterAssociate
  simp only [hwait, hreqz, hreqv]
  rw [read_encodeId _ d.zone_id d.vpc_id hz hv hcz hcv rfl]

/-- C3: a same-account Create whose single associate call succeeds with change
id `C`, and whose change tracker reports PENDING once and then INSYNC (two polls
fit in the timeout), returns no error; the resource id is the zone id, `:`, the
VPC id; the `zone_id` and `vpc_id` attributes after the confirming Read are the
declared ones; and the associate call was issued exactly once. -/
theorem C3_same_account_create (env : Env) (d : ResourceData) (C : Str)
    (hz : d.zone_id ≠ []) (hv : d.vpc_id ≠ [])
    (hcz : ':' ∉ d.zone_id) (hcv : ':' ∉ d.vpc_id)
    (hcross : d.cross_account = false)
    (hassoc : env.associateVPCWithHostedZone 0 (associateRequest env d) = Except.ok C)
    (hp0 : env.resourceAwsGoRoute53Wait 0 (env.cleanChangeID C)
      = ⟨some true, "PENDING".toList, none⟩)
    (hp1 : env.resourceAwsGoRoute53Wait 1 (env.cleanChangeID C)
      = ⟨some true, "INSYNC".toList, none⟩)
    (hpolls : 2 ≤ env.maxPolls) :
    (resourceAwsRoute53ZoneAssociationCreate env d).1 = none ∧
    (resourceAwsRoute53ZoneAssociationCreate env d).2.1.id
      = d.zone_id ++ ":".toList ++ d.vpc_id ∧
    (resourceAwsRoute53ZoneAssociationCreate env d).2.1.zone_id = d.zone_id ∧
    (resourceAwsRoute53ZoneAssociationCreate env d).2.1.vpc_id = d.vpc_id ∧
    (resourceAwsRoute53ZoneAssociationCreate env d).2.2.associateCalls
      = [associateRequest env d] := by
  rw [create_same_account env d C hz hv hcz hcv hcross hassoc hp0 hp1 hpolls]
  simp [encodeId]


theorem C3_same_account_create_witness :
    (resourceAwsRoute53ZoneAssociationCreate insyncEnv sameAccountData).1 = none ∧
    (resourceAwsRoute53ZoneAssociationCreate insyncEnv sameAccountData).2.1.id
      = "Z1".toList ++ ":".toList ++ "vpc-1".toList ∧
    (resourceAwsRoute53ZoneAssociationCreate insyncEnv sameAccountData).2.1.zone_id
      = "Z1".toList ∧
    (resourceAwsRoute53ZoneAssociationCreate insyncEnv sameAccountData).2.1.vpc_id
      = "vpc-1".toList ∧
    (resourceAwsRoute53ZoneAssociationCreate insyncEnv sameAccountData).2.2.associateCalls
      = [associateRequest insyncEnv sameAccountData] :=
  C3_same_account_create insyncEnv sameAccountData "/change/C1".toList
    (by decide) (by decide) (by decide) (by decide) rfl rfl rfl rfl (by decide)


/-! ### The cross-account refresh function -/

theorem regexpMatch_true (sizeLimit : Str → Option RegexErr)
    (outside : Str → Str → Except RegexErr Bool) (p m : Str)
    (h : (regexpMatch sizeLimit outside p m).1 = true) :
    regexpMatch sizeLimit outside p m = (true, none) := by
  unfold regexpMatch at h ⊢
  split at h <;> simp_all

theorem crossAccountRefresh_ok (env : Env) (req : AssociateVPCWithHostedZoneInput)
    (pat : Str) (tr : Trace) (C : Str)
    (h : env.associateVPCWithHostedZone tr.associateCalls.length req = Except.ok C) :
    crossAccountRefresh env req pat tr =
      (⟨some true, "PENDING".toList, none⟩,
        { tr with associateCalls := tr.associateCalls ++ [req] }) := by
  simp [crossAccountRefresh, h]

theorem crossAccountRefresh_match (env : Env) (req : AssociateVPCWithHostedZoneInput)
    (pat : Str) (tr : Trace) (e : RemoteErr)
    (h : env.associateVPCWithHostedZone tr.associateCalls.length req = Except.error e)
    (hm : (regexpMatch env.regexpSizeLimit env.regexpOutside pat e.text).1 = true) :
    crossAccountRefresh env req pat tr =
      (⟨some true, "INSYNC".toList, none⟩,
        { tr with associateCalls := tr.associateCalls ++ [req] }) := by
  simp [crossAccountRefresh, h, regexpMatch_true _ _ _ _ hm]

theorem crossAccountRefresh_other (env : Env) (req : AssociateVPCWithHostedZoneInput)
    (pat : Str) (tr : Trace) (e : RemoteErr)
    (h : env.associateVPCWithHostedZone tr.associateCalls.length req = Except.error e)
    (hm : (regexpMatch env.regexpSizeLimit env.regexpOutside pat e.text).1 = false) :
    crossAccountRefresh env req pat tr =
      (⟨none, "UNKNOWN".toList, some (Err.remote e)⟩,
        { tr with associateCalls := tr.associateCalls ++ [req] }) := by
  unfold crossAccountRefresh
  simp only [h]
  split
  · rename_i heq
    rw [heq] at hm
    simp at hm
  · rename_i heq
    rw [heq] at hm
    simp at hm
  · rfl

theorem createWaitConf_refresh_cross (env : Env) (d : ResourceData) (resp : Option Str)
    (hcross : d.cross_account = true) :
    (createWaitConf env d resp).refresh =
      crossAccountRefresh env (associateRequest env d) (existsPattern d.vpc_id d.zone_id) := by
  simp [createWaitConf, hcross]

/-- Probes that succeed `k` times and are then rejected with a matching error
make the wait succeed, given a budget of more than `k` polls. -/
theorem waitForState_cross_converges (env : Env) (d : ResourceData) (resp : Option Str)
    (hcross : d.cross_account = true) (e : RemoteErr)
    (hm : (regexpMatch env.regexpSizeLimit env.regexpOutside (existsPattern d.vpc_id d.zone_id) e.text).1 = true) :
    ∀ (k fuel tick : Nat) (tr : Trace),
      (∀ i, i < k → ∃ C, env.associateVPCWithHostedZone (tr.associateCalls.length + i)
        (associateRequest env d) = Except.ok C) →
      env.associateVPCWithHostedZone (tr.associateCalls.length + k) (associateRequest env d)
        = Except.error e →
      k < fuel →
      waitForState (createWaitConf env d resp) fuel tick tr =
        (none, ⟨tr.associateCalls ++ List.replicate (k + 1) (associateRequest env d),
          tr.getChangeCalls⟩) := by
  intro k
  induction k with
  | zero =>
    intro fuel tick tr _ herr hk
    obtain ⟨f, rfl⟩ : ∃ f, fuel = f + 1 := ⟨fuel - 1, by omega⟩
    exact waitForState_target _ f tick tr _ ⟨some true, "INSYNC".toList, none⟩ true
      (by rw [createWaitConf_refresh_cross env d resp hcross]
          exact crossAccountRefresh_match env _ _ tr e herr hm)
      rfl rfl (by simp [createWaitConf])
  | succ k ih =>
    intro fuel tick tr hok herr hk
    obtain ⟨f, rfl⟩ : ∃ f, fuel = f + 1 := ⟨fuel - 1, by omega⟩
    obtain ⟨C, hC⟩ := hok 0 (by omega)
    rw [waitForState_pending _ f tick tr
      { tr with associateCalls := tr.associateCalls ++ [associateRequest env d] }
      ⟨some true, "PENDING".toList, none⟩ true
      (by rw [createWaitConf_refresh_cross env d resp hcross]
          exact crossAccountRefresh_ok env _ _ tr C hC)
      rfl rfl (by simp [createWaitConf, pending_ne_insync]) (by simp [createWaitConf])]
    rw [ih f 0 _ ?_ ?_ (by omega)]
    · simp [List.replicate_succ]
    · intro i hi
      obtain ⟨C2, hC2⟩ := hok (i + 1) (by omega)
      refine ⟨C2, ?_⟩
      simp only [List.length_append, List.length_singleton]
      rw [← hC2]
      congr 1
      omega
    · simp only [List.length_append, List.length_singleton]
      rw [← herr]
      congr 1
      omega

/-- C4: in the cross-account refresh function a re-issued associate call with no
error is classified PENDING with no error and the wait polls again; an error
whose message matches the pattern is classified INSYNC with no error and the wait
ends with success; every other error ends the wait with that same remote error;
and probes that succeed `k` times and then fail with a matching error make the
wait of Create succeed, when more than `k` polls fit in the timeout. -/
theorem C4_cross_account_reprobe (env : Env) (d : ResourceData) (resp : Option Str)
    (hcross : d.cross_account = true) :
    (∀ (tr : Trace) (fuel tick : Nat) (C : Str),
      env.associateVPCWithHostedZone tr.associateCalls.length (associateRequest env d)
        = Except.ok C →
      (createWaitConf env d resp).refresh tr =
        (⟨some true, "PENDING".toList, none⟩,
          { tr with associateCalls := tr.associateCalls ++ [associateRequest env d] }) ∧
      waitForState (createWaitConf env d resp) (fuel + 1) tick tr =
        waitForState (createWaitConf env d resp) fuel 0
          { tr with associateCalls := tr.associateCalls ++ [associateRequest env d] }) ∧
    (∀ (tr : Trace) (fuel tick : Nat) (e : RemoteErr),
      env.associateVPCWithHostedZone tr.associateCalls.length (associateRequest env d)
        = Except.error e →
      (regexpMatch env.regexpSizeLimit env.regexpOutside (existsPattern d.vpc_id d.zone_id) e.text).1 = true →
      (createWaitConf env d resp).refresh tr =
        (⟨some true, "INSYNC".toList, none⟩,
          { tr with associateCalls := tr.associateCalls ++ [associateRequest env d] }) ∧
      waitForState (createWaitConf env d resp) (fuel + 1) tick tr =
        (none, { tr with associateCalls := tr.associateCalls ++ [associateRequest env d] })) ∧
    (∀ (tr : Trace) (fuel tick : Nat) (e : RemoteErr),
      env.associateVPCWithHostedZone tr.associateCalls.length (associateRequest env d)
        = Except.error e →
      (regexpMatch env.regexpSizeLimit env.regexpOutside (existsPattern d.vpc_id d.zone_id) e.text).1 = false →
      (createWaitConf env d resp).refresh tr =
        (⟨none, "UNKNOWN".toList, some (Err.remote e)⟩,
          { tr with associateCalls := tr.associateCalls ++ [associateRequest env d] }) ∧
      waitForState (createWaitConf env d resp) (fuel + 1) tick tr =
        (some (Err.remote e),
          { tr with associateCalls := tr.associateCalls ++ [associateRequest env d] })) ∧
    (∀ (k : Nat) (e : RemoteErr),
      (∀ i, i < k → ∃ C, env.associateVPCWithHostedZone (1 + i) (associateRequest env d)
        = Except.ok C) →
      env.associateVPCWithHostedZone (1 + k) (associateRequest env d) = Except.error e →
      (regexpMatch env.regexpSizeLimit env.regexpOutside (existsPattern d.vpc_id d.zone_id) e.text).1 = true →
      k < env.maxPolls →
      createWait env d resp =
        (none, ⟨List.replicate (k + 2) (associateRequest env d), []⟩)) := by
  have href := createWaitConf_refresh_cross env d resp hcross
  refine ⟨?_, ?_, ?_, ?_⟩
  · intro tr fuel tick C hC
    have hr := crossAccountRefresh_ok env (associateRequest env d)
      (existsPattern d.vpc_id d.zone_id) tr C hC
    rw [← href] at hr
    exact ⟨hr, waitForState_pending _ fuel tick tr _ _ true hr rfl rfl
      (by simp [createWaitConf, pending_ne_insync]) (by simp [createWaitConf])⟩
  · intro tr fuel tick e he hm
    have hr := crossAccountRefresh_match env (associateRequest env d)
      (existsPattern d.vpc_id d.zone_id) tr e he hm
    rw [← href] at hr
    exact ⟨hr, waitForState_target _ fuel tick tr _ _ true hr rfl rfl
      (by simp [createWaitConf])⟩
  · intro tr fuel tick e he hm
    have hr := crossAccountRefresh_other env (associateRequest env d)
      (existsPattern d.vpc_id d.zone_id) tr e he hm
    rw [← href] at hr
    exact ⟨hr, waitForState_error _ fuel tick tr _ _ _ hr rfl⟩
  · intro k e hok herr hm hk
    unfold createWait
    rw [waitForState_cross_converges env d resp hcross e hm k env.maxPolls 0
      ⟨[associateRequest env d], []⟩ hok herr hk]
    simp [List.replicate_succ]

set_option maxRecDepth 100000 in
theorem C4_cross_account_reprobe_witness :
    createWait convergingEnv crossAccountData none =
      (none, ⟨List.replicate (2 + 2) (associateRequest convergingEnv crossAccountData), []⟩) :=
  (C4_cross_account_reprobe convergingEnv crossAccountData none rfl).2.2.2 2 conflictErr
    (fun i hi => ⟨"/change/C1".toList, by
      show (if 1 + i < 3 then _ else _) = _
      rw [if_pos (by omega)]⟩)
    rfl (by decide) (by decide)


/-! ### The first associate call of Create -/

theorem read_id (d : ResourceData) : (resourceAwsRoute53ZoneAssociationRead d).2.id = d.id := by
  unfold resourceAwsRoute53ZoneAssociationRead
  split <;> rfl

theorem createAfterAssociate_id (env : Env) (d : ResourceData) (resp : Option Str) :
    (createAfterAssociate env d resp).2.1.id = encodeId d.zone_id d.vpc_id := by
  obtain ⟨hz, hv⟩ := associateRequest_ids env d
  unfold createAfterAssociate
  simp only [hz, hv]
  split
  · rfl
  · exact read_id { d with id := encodeId d.zone_id d.vpc_id }

theorem create_of_initial_error (env : Env) (d : ResourceData) (err : Err)
    (h : createInitialCall env d = Except.error err) :
    resourceAwsRoute53ZoneAssociationCreate env d
      = (some err, d, ⟨[associateRequest env d], []⟩) := by
  simp [resourceAwsRoute53ZoneAssociationCreate, h]

theorem create_of_initial_ok (env : Env) (d : ResourceData) (resp : Option Str)
    (h : createInitialCall env d = Except.ok resp) :
    resourceAwsRoute53ZoneAssociationCreate env d = createAfterAssociate env d resp := by
  simp [resourceAwsRoute53ZoneAssociationCreate, h]

/-- The outcome of the first call of Create when the associate call fails. -/
theorem createInitialCall_of_failure (env : Env) (d : ResourceData) (e : RemoteErr)
    (hfail : env.associateVPCWithHostedZone 0 (associateRequest env d) = Except.error e) :
    createInitialCall env d =
      if d.cross_account then
        match regexpMatch env.regexpSizeLimit env.regexpOutside (existsPattern d.vpc_id d.zone_id) e.text with
        | (_, some compileErr) => Except.error (Err.regexp compileErr)
        | (false, none) => Except.error (Err.remote e)
        | (true, none) => Except.ok none
      else Except.error (Err.remote e) := by
  simp only [createInitialCall, hfail]

theorem crossAccountRefresh_trace (env : Env) (req : AssociateVPCWithHostedZoneInput)
    (pat : Str) (tr : Trace) :
    (crossAccountRefresh env req pat tr).2 =
      { tr with associateCalls := tr.associateCalls ++ [req] } := by
  unfold crossAccountRefresh
  split
  · rfl
  · split <;> rfl

/-- One round of the wait either ends it or polls again, in both cases after one
call of the refresh function. -/
theorem waitForState_step (conf : StateChangeConf) (fuel tick : Nat) (tr : Trace) :
    (∃ e, waitForState conf (fuel + 1) tick tr = (e, (conf.refresh tr).2)) ∨
      (∃ t, waitForState conf (fuel + 1) tick tr
        = waitForState conf fuel t (conf.refresh tr).2) := by
  rcases hr : conf.refresh tr with ⟨r, tr1⟩
  simp only [waitForState, hr]
  split
  · exact Or.inl ⟨_, rfl⟩
  · split
    · split
      · exact Or.inl ⟨_, rfl⟩
      · exact Or.inr ⟨_, rfl⟩
    · split
      · exact Or.inl ⟨_, rfl⟩
      · split
        · exact Or.inr ⟨_, rfl⟩
        · split
          · exact Or.inl ⟨_, rfl⟩
          · exact Or.inr ⟨_, rfl⟩

/-- The cross-account wait re-issues the associate call once a poll: between one
and `fuel` times when the budget is not empty. -/
theorem waitForState_cross_calls (env : Env) (d : ResourceData) (resp : Option Str)
    (hcross : d.cross_account = true) :
    ∀ (fuel tick : Nat) (tr : Trace), ∃ n,
      (waitForState (createWaitConf env d resp) fuel tick tr).2 =
        ⟨tr.associateCalls ++ List.replicate n (associateRequest env d), tr.getChangeCalls⟩ ∧
      n ≤ fuel ∧ (0 < fuel → 1 ≤ n) := by
  intro fuel
  induction fuel with
  | zero =>
    intro tick tr
    exact ⟨0, by simp [waitForState], Nat.le_refl 0, fun h => absurd h (by omega)⟩
  | succ f ih =>
    intro tick tr
    have htr : ((createWaitConf env d resp).refresh tr).2 =
        { tr with associateCalls := tr.associateCalls ++ [associateRequest env d] } := by
      rw [createWaitConf_refresh_cross env d resp hcross]
      exact crossAccountRefresh_trace env _ _ tr
    rcases waitForState_step (createWaitConf env d resp) f tick tr with ⟨e, he⟩ | ⟨t, ht⟩
    · refine ⟨1, ?_, by omega, fun _ => Nat.le_refl 1⟩
      rw [he, htr]
      simp
    · obtain ⟨n, hn, hle, _⟩ := ih t
        { tr with associateCalls := tr.associateCalls ++ [associateRequest env d] }
      refine ⟨n + 1, ?_, by omega, fun _ => by omega⟩
      rw [ht, htr, hn]
      simp [List.replicate_succ]

theorem createAfterAssociate_trace (env : Env) (d : ResourceData) (resp : Option Str) :
    (createAfterAssociate env d resp).2.2 = (createWait env d resp).2 := by
  unfold createAfterAssociate
  split
  · rename_i heq
    rw [heq]
  · rename_i heq
    rw [heq]

/-- C5, as the code has it: when the first associate call of Create fails, the
failure is ignored if and only if `cross_account` is set and the error message
matches the pattern; Create then stores the handle and enters the wait, which
re-issues the associate call at every poll.  When `cross_account` is not set, or
it is set and the pattern check reports no match and no error of its own, Create
returns that same remote error, has issued the one associate call only, and
leaves the resource data, its id included, as it was.  When `cross_account` is
set and the pattern check itself fails, Create returns the error of the check
instead, again with the one call only and the resource data as it was. -/
theorem C5_initial_failure_amended (env : Env) (d : ResourceData) (e : RemoteErr)
    (hfail : env.associateVPCWithHostedZone 0 (associateRequest env d) = Except.error e) :
    (createInitialCall env d = Except.ok none ↔
      d.cross_account = true ∧
        (regexpMatch env.regexpSizeLimit env.regexpOutside
          (existsPattern d.vpc_id d.zone_id) e.text).1 = true) ∧
    (d.cross_account = true ∧
        (regexpMatch env.regexpSizeLimit env.regexpOutside
          (existsPattern d.vpc_id d.zone_id) e.text).1 = true →
      (resourceAwsRoute53ZoneAssociationCreate env d).2.1.id
        = d.zone_id ++ ":".toList ++ d.vpc_id ∧
      ∃ n, (resourceAwsRoute53ZoneAssociationCreate env d).2.2 =
          ⟨associateRequest env d :: List.replicate n (associateRequest env d), []⟩ ∧
        n ≤ env.maxPolls ∧ (0 < env.maxPolls → 1 ≤ n)) ∧
    (d.id = [] →
      ((resourceAwsRoute53ZoneAssociationCreate env d).2.1.id
          = d.zone_id ++ ":".toList ++ d.vpc_id ↔
        d.cross_account = true ∧
          (regexpMatch env.regexpSizeLimit env.regexpOutside
            (existsPattern d.vpc_id d.zone_id) e.text).1 = true)) ∧
    (d.cross_account = false ∨
        (d.cross_account = true ∧
          regexpMatch env.regexpSizeLimit env.regexpOutside
            (existsPattern d.vpc_id d.zone_id) e.text = (false, none)) →
      resourceAwsRoute53ZoneAssociationCreate env d
        = (some (Err.remote e), d, ⟨[associateRequest env d], []⟩)) ∧
    (∀ compileErr, d.cross_account = true →
      (regexpMatch env.regexpSizeLimit env.regexpOutside
        (existsPattern d.vpc_id d.zone_id) e.text).2 = some compileErr →
      resourceAwsRoute53ZoneAssociationCreate env d
        = (some (Err.regexp compileErr), d, ⟨[associateRequest env d], []⟩)) := by
  have hinit := createInitialCall_of_failure env d e hfail
  have hiff : createInitialCall env d = Except.ok none ↔
      d.cross_account = true ∧
        (regexpMatch env.regexpSizeLimit env.regexpOutside
          (existsPattern d.vpc_id d.zone_id) e.text).1 = true := by
    rw [hinit]
    constructor
    · intro h
      split at h
      · rename_i hc
        refine ⟨hc, ?_⟩
        split at h
        · simp at h
        · simp at h
        · rename_i heq
          rw [heq]
      · simp at h
    · rintro ⟨hc, hm⟩
      rw [if_pos hc, regexpMatch_true _ _ _ _ hm]
  have hset : ∀ resp, createInitialCall env d = Except.ok resp →
      (resourceAwsRoute53ZoneAssociationCreate env d).2.1.id
        = d.zone_id ++ ":".toList ++ d.vpc_id := by
    intro resp h
    rw [create_of_initial_ok env d resp h, createAfterAssociate_id]
    simp [encodeId]
  refine ⟨hiff, ?_, ?_, ?_, ?_⟩
  · intro hsoft
    have hok := hiff.2 hsoft
    refine ⟨hset none hok, ?_⟩
    obtain ⟨n, hn, hle, hpos⟩ := waitForState_cross_calls env d none hsoft.1 env.maxPolls 0
      ⟨[associateRequest env d], []⟩
    refine ⟨n, ?_, hle, hpos⟩
    rw [create_of_initial_ok env d none hok, createAfterAssociate_trace]
    unfold createWait
    rw [hn]
    simp
  · intro hid
    rw [← hiff]
    constructor
    · intro hidset
      cases hc : createInitialCall env d with
      | error err =>
        rw [create_of_initial_error env d err hc] at hidset
        simp only [hid] at hidset
        exact absurd hidset.symm (by simp)
      | ok resp =>
        cases resp with
        | none => rfl
        | some C =>
          rw [hinit] at hc
          split at hc
          · split at hc <;> simp at hc
          · simp at hc
    · intro h
      exact hset none h
  · intro h
    apply create_of_initial_error
    rw [hinit]
    rcases h with hc | ⟨hc, hm⟩
    · simp [hc]
    · rw [if_pos hc, hm]
  · intro compileErr hc hm
    apply create_of_initial_error
    rw [hinit, if_pos hc]
    split
    · rename_i heq
      rw [heq] at hm
      simp only [Option.some.injEq] at hm
      rw [hm]
    · rename_i heq
      rw [heq] at hm
      simp at hm
    · rename_i heq
      rw [heq] at hm
      simp at hm

set_option maxRecDepth 100000 in
theorem C5_initial_failure_amended_witness :
    ((resourceAwsRoute53ZoneAssociationCreate conflictEnv crossAccountData).2.1.id
        = "Z1".toList ++ ":".toList ++ "vpc-1".toList ∧
      ∃ n, (resourceAwsRoute53ZoneAssociationCreate conflictEnv crossAccountData).2.2 =
          ⟨associateRequest conflictEnv crossAccountData ::
            List.replicate n (associateRequest conflictEnv crossAccountData), []⟩ ∧
        n ≤ 5 ∧ (0 < 5 → 1 ≤ n)) ∧
    resourceAwsRoute53ZoneAssociationCreate throttlingEnv crossAccountData
      = (some (Err.remote throttlingErr), crossAccountData,
          ⟨[associateRequest throttlingEnv crossAccountData], []⟩) ∧
    resourceAwsRoute53ZoneAssociationCreate conflictEnv malformedPatternData
      = (some (Err.regexp RegexErr.invalidRepeatOp), malformedPatternData,
          ⟨[associateRequest conflictEnv malformedPatternData], []⟩) :=
  ⟨(C5_initial_failure_amended conflictEnv crossAccountData conflictErr rfl).2.1
      ⟨rfl, by decide⟩,
    (C5_initial_failure_amended throttlingEnv crossAccountData throttlingErr rfl).2.2.2.1
      (Or.inr ⟨rfl, by decide⟩),
    (C5_initial_failure_amended conflictEnv malformedPatternData conflictErr rfl).2.2.2.2
      RegexErr.invalidRepeatOp rfl (by decide)⟩

set_option maxRecDepth 100000 in
/-- C5, as stated, fails: in a cross-account Create whose zone id `Z1**` makes
the pattern malformed, the first associate call fails, the message is not
matched, and Create returns the error of the pattern check, not the remote
error. -/
theorem C5_counterexample :
    conflictEnv.associateVPCWithHostedZone 0 (associateRequest conflictEnv malformedPatternData)
      = Except.error conflictErr ∧
    malformedPatternData.cross_account = true ∧
    (regexpMatch conflictEnv.regexpSizeLimit conflictEnv.regexpOutside
        (existsPattern malformedPatternData.vpc_id malformedPatternData.zone_id)
        conflictErr.text).1 = false ∧
    (resourceAwsRoute53ZoneAssociationCreate conflictEnv malformedPatternData).1
      = some (Err.regexp RegexErr.invalidRepeatOp) ∧
    (resourceAwsRoute53ZoneAssociationCreate conflictEnv malformedPatternData).1
      ≠ some (Err.remote conflictErr) := by
  refine ⟨rfl, rfl, by decide, by decide, by decide⟩

/-! ### The id after a failed wait -/

/-- C6, as the code has it: when Create reaches the wait and the wait ends in an
error (the timeout, or a fatal error of a poll), Create returns that error, and
the resource data it leaves carries the handle stored before the wait: the zone
id, `:`, the VPC id. -/
theorem C6_failed_wait_keeps_id (env : Env) (d : ResourceData) (resp : Option Str)
    (err : Err) (tr : Trace)
    (hinit : createInitialCall env d = Except.ok resp)
    (hwait : createWait env d resp = (some err, tr)) :
    resourceAwsRoute53ZoneAssociationCreate env d =
      (some err, { d with id := d.zone_id ++ ":".toList ++ d.vpc_id }, tr) := by
  obtain ⟨hz, hv⟩ := associateRequest_ids env d
  rw [create_of_initial_ok env d resp hinit]
  unfold createAfterAssociate
  simp only [hwait, hz, hv]
  simp [encodeId]

set_option maxRecDepth 100000 in
theorem C6_failed_wait_keeps_id_witness :
    resourceAwsRoute53ZoneAssociationCreate neverConvergingEnv crossAccountData =
      (some Err.timeout,
        { crossAccountData with id := "Z1".toList ++ ":".toList ++ "vpc-1".toList },
        ⟨List.replicate 4 (associateRequest neverConvergingEnv crossAccountData), []⟩) :=
  C6_failed_wait_keeps_id neverConvergingEnv crossAccountData (some "/change/C1".toList)
    Err.timeout _ rfl (by decide)

set_option maxRecDepth 100000 in
/-- C6, as stated, fails: a cross-account Create whose re-probes never see the
conflict within the timeout returns the timeout error, and the resource data it
leaves has the id `Z1:vpc-1`, not the empty id it started with. -/
theorem C6_counterexample :
    crossAccountData.id = [] ∧
    (createWait neverConvergingEnv crossAccountData (some "/change/C1".toList)).1
      = some Err.timeout ∧
    (resourceAwsRoute53ZoneAssociationCreate neverConvergingEnv crossAccountData).1
      = some Err.timeout ∧
    (resourceAwsRoute53ZoneAssociationCreate neverConvergingEnv crossAccountData).2.1.id
      = "Z1:vpc-1".toList ∧
    (resourceAwsRoute53ZoneAssociationCreate neverConvergingEnv crossAccountData).2.1.id
      ≠ [] := by
  decide

/-! ### A failing pattern check -/

set_option maxRecDepth 100000 in
/-- C7 at a failing input: with the zone id `Z1**` the pattern is malformed and
the check fails with a parse error.  On the first call Create returns that parse
error; on a re-probe of the wait (the first call having succeeded) Create
returns the remote error instead. -/
theorem C7_pattern_error_at_reprobe :
    regexpMatch lateConflictEnv.regexpSizeLimit lateConflictEnv.regexpOutside
        (existsPattern malformedPatternData.vpc_id malformedPatternData.zone_id)
        conflictErr.text
      = (false, some RegexErr.invalidRepeatOp) ∧
    (resourceAwsRoute53ZoneAssociationCreate conflictEnv malformedPatternData).1
      = some (Err.regexp RegexErr.invalidRepeatOp) ∧
    (resourceAwsRoute53ZoneAssociationCreate lateConflictEnv malformedPatternData).1
      = some (Err.remote conflictErr) ∧
    (resourceAwsRoute53ZoneAssociationCreate lateConflictEnv malformedPatternData).2.2.associateCalls.length
      = 2 := by
  decide


/-! ### Delete -/

/-- C8: Delete on a malformed handle returns the decoding error and issues no
remote call; on a well-formed handle it issues exactly one disassociate call,
carrying the decoded zone id, the decoded VPC id and the stored region, returns
no error exactly when that call succeeds, and on a remote failure returns an
error whose message holds the zone id, the VPC id and the text of the remote
error. -/
theorem C8_delete_contract (env : Env) (d : ResourceData) :
    (∀ err, (resourceAwsRoute53ZoneAssociationParseId d.id).2.2 = some err →
      resourceAwsRoute53ZoneAssociationDelete env d = (some err, [])) ∧
    (∀ z v, resourceAwsRoute53ZoneAssociationParseId d.id = (z, v, none) →
      (resourceAwsRoute53ZoneAssociationDelete env d).2 =
        [{ HostedZoneId := z, VPC := { VPCId := v, VPCRegion := d.vpc_region },
           Comment := "Managed by Terraform".toList }] ∧
      ((resourceAwsRoute53ZoneAssociationDelete env d).1 = none ↔
        env.disassociateVPCFromHostedZone
          { HostedZoneId := z, VPC := { VPCId := v, VPCRegion := d.vpc_region },
            Comment := "Managed by Terraform".toList } = none) ∧
      (∀ re, env.disassociateVPCFromHostedZone
          { HostedZoneId := z, VPC := { VPCId := v, VPCRegion := d.vpc_region },
            Comment := "Managed by Terraform".toList } = some re →
        ∃ msg, (resourceAwsRoute53ZoneAssociationDelete env d).1 = some (Err.errorf msg) ∧
          z <:+: msg ∧ v <:+: msg ∧ re.text <:+: msg)) := by
  refine ⟨?_, ?_⟩
  · intro err herr
    rcases hp : resourceAwsRoute53ZoneAssociationParseId d.id with ⟨z, v, e⟩
    rw [hp] at herr
    simp only at herr
    subst herr
    simp [resourceAwsRoute53ZoneAssociationDelete, hp]
  · intro z v hp
    unfold resourceAwsRoute53ZoneAssociationDelete
    simp only [hp]
    cases hdis : env.disassociateVPCFromHostedZone
        { HostedZoneId := z, VPC := { VPCId := v, VPCRegion := d.vpc_region },
          Comment := "Managed by Terraform".toList } with
    | none => simp
    | some re =>
      refine ⟨rfl, by simp, ?_⟩
      intro re2 hre
      simp only [Option.some.injEq] at hre
      subst hre
      refine ⟨_, rfl, ?_, ?_, ?_⟩
      · exact ⟨"error disassociating Route 53 Hosted Zone (".toList,
          ") Association (".toList ++ v ++ "): ".toList ++ re.text, by simp⟩
      · exact ⟨"error disassociating Route 53 Hosted Zone (".toList ++ z ++
          ") Association (".toList, "): ".toList ++ re.text, by simp⟩
      · exact ⟨"error disassociating Route 53 Hosted Zone (".toList ++ z ++
          ") Association (".toList ++ v ++ "): ".toList, [], by simp⟩

/-! ### The destroy check -/

/-- C10 at a failing input: both resources are authorizations with well-formed
handles, zone `Z1` is reported not found and `vpc-2` is still listed for zone
`Z2`; visiting `Z1:vpc-1` first, the check returns no error, and visiting
`Z2:vpc-2` first it returns one. -/
theorem C10_destroy_check_returns_early :
    (∀ rs ∈ destroyCheckResources,
      (resourceAwsRoute53ZoneAssociationParseId rs.primaryID).2.2 = none) ∧
    destroyCheckListing "Z2".toList = Except.ok ["vpc-2".toList] ∧
    testAccCheckRoute53VPCAssociationAuthorizationDestroy destroyCheckListing
      destroyCheckResources = none ∧
    testAccCheckRoute53VPCAssociationAuthorizationDestroy destroyCheckListing
      destroyCheckResources.reverse ≠ none := by
  refine ⟨by decide, rfl, by decide, by decide⟩


/-! ### The pattern on identifiers without special characters -/

theorem star_mem_special : '*' ∈ regexpSpecial := by decide

theorem dot_mem_special : '.' ∈ regexpSpecial := by decide

theorem regexpParse_lit_cons (c : Char) (rest : Str) (hc : c ∉ regexpSpecial)
    (hrest : rest.head? ≠ some '*') :
    regexpParse (c :: rest) = consPiece ⟨Atom.lit c, false⟩ (regexpParse rest) := by
  have hstar : c ≠ '*' := fun h => hc (h ▸ star_mem_special)
  have hdot : c ≠ '.' := fun h => hc (h ▸ dot_mem_special)
  cases rest with
  | nil => simp [regexpParse, hstar, hc, atomOf, hdot, consPiece]
  | cons c2 r =>
    have h2 : c2 ≠ '*' := by
      intro h
      apply hrest
      simp [h]
    simp [regexpParse, hstar, hc, atomOf, hdot, h2]

theorem regexpParse_lits (l rest : Str) (hl : ∀ c ∈ l, c ∉ regexpSpecial)
    (hrest : rest.head? ≠ some '*') :
    regexpParse (l ++ rest) = (litPieces l).foldr consPiece (regexpParse rest) := by
  induction l with
  | nil => rfl
  | cons c l ih =>
    have hc : c ∉ regexpSpecial := hl c (by simp)
    have hl2 : ∀ x ∈ l, x ∉ regexpSpecial := fun x hx => hl x (by simp [hx])
    have hhead : (l ++ rest).head? ≠ some '*' := by
      cases l with
      | nil => simpa using hrest
      | cons x l2 =>
        intro h
        have hx : x = '*' := by simpa using h
        exact hl2 x (by simp) (hx ▸ star_mem_special)
    rw [List.cons_append, regexpParse_lit_cons c (l ++ rest) hc hhead, ih hl2]
    rfl

theorem regexpParse_dotStar (rest : Str) (hrest : rest.head? ≠ some '*') :
    regexpParse ('.' :: '*' :: rest) = consPiece dotStar (regexpParse rest) := by
  have h1 : ¬ ('.' = '*') := by decide
  simp [regexpParse, h1, hrest, atomOf, dotStar]

theorem foldr_consPiece_ok (ps qs : List Piece) :
    ps.foldr consPiece (some (Except.ok qs)) = some (Except.ok (ps ++ qs)) := by
  induction ps with
  | nil => rfl
  | cons p ps ih => simp [List.foldr, ih, consPiece]

theorem conflictPrefix_plain (vpc : Str) (hv : ∀ c ∈ vpc, c ∉ regexpSpecial) :
    ∀ c ∈ conflictPrefix vpc, c ∉ regexpSpecial := by
  have h1 : ∀ c ∈ "ConflictingDomainExists: The VPC ".toList, c ∉ regexpSpecial := by decide
  have h2 : ∀ c ∈ " ".toList, c ∉ regexpSpecial := by decide
  intro c hc
  simp only [conflictPrefix, List.mem_append] at hc
  rcases hc with (hc | hc) | hc
  · exact h1 c hc
  · exact hv c hc
  · exact h2 c hc

theorem conflictSuffix_plain (zone : Str) (hz : ∀ c ∈ zone, c ∉ regexpSpecial) :
    ∀ c ∈ conflictSuffix zone, c ∉ regexpSpecial := by
  have h1 : ∀ c ∈ " associated with the hosted zone ".toList, c ∉ regexpSpecial := by decide
  have h2 : ∀ c ∈ " ".toList, c ∉ regexpSpecial := by decide
  intro c hc
  simp only [conflictSuffix, List.mem_append] at hc
  rcases hc with (hc | hc) | hc
  · exact h1 c hc
  · exact hz c hc
  · exact h2 c hc

theorem existsPattern_eq (vpc zone : Str) :
    existsPattern vpc zone =
      conflictPrefix vpc ++ '.' :: '*' :: (conflictSuffix zone ++ '.' :: '*' :: []) := by
  simp [existsPattern, conflictPrefix, conflictSuffix]

/-- The parse of the pattern of Create for identifiers without special
characters. -/
theorem regexpParse_existsPattern (vpc zone : Str)
    (hv : ∀ c ∈ vpc, c ∉ regexpSpecial) (hz : ∀ c ∈ zone, c ∉ regexpSpecial) :
    regexpParse (existsPattern vpc zone) =
      some (Except.ok (litPieces (conflictPrefix vpc) ++
        dotStar :: (litPieces (conflictSuffix zone) ++ [dotStar]))) := by
  have hsuf : (conflictSuffix zone ++ '.' :: '*' :: []).head? ≠ some '*' := by
    simp [conflictSuffix]
  have hdot : ('.' :: '*' :: (conflictSuffix zone ++ '.' :: '*' :: [])).head? ≠ some '*' := by
    simp
  have hdot2 : ('.' :: '*' :: ([] : Str)).head? ≠ some '*' := by simp
  have hnil : ([] : Str).head? ≠ some '*' := by simp
  rw [existsPattern_eq, regexpParse_lits _ _ (conflictPrefix_plain vpc hv) hdot,
    regexpParse_dotStar _ hsuf, regexpParse_lits _ _ (conflictSuffix_plain zone hz) hdot2,
    regexpParse_dotStar _ hnil]
  simp only [regexpParse, consPiece, foldr_consPiece_ok]

theorem matchHere_lit_nil (c : Char) (ps : List Piece) :
    matchHere (⟨Atom.lit c, false⟩ :: ps) [] = false := rfl

theorem matchHere_lit_cons (c x : Char) (ps : List Piece) (xs : Str) :
    matchHere (⟨Atom.lit c, false⟩ :: ps) (x :: xs) = (x == c && matchHere ps xs) := rfl

theorem matchHere_dotStar (ps : List Piece) (s : Str) :
    matchHere (dotStar :: ps) s = starLoop Atom.anyCharNotNL.accepts (matchHere ps) s := rfl

theorem matchHere_lits (l : Str) (ps : List Piece) :
    ∀ s, matchHere (litPieces l ++ ps) s = true → ∃ t, s = l ++ t ∧ matchHere ps t = true := by
  induction l with
  | nil => intro s h; exact ⟨s, rfl, h⟩
  | cons c l ih =>
    intro s h
    have hl : litPieces (c :: l) ++ ps = ⟨Atom.lit c, false⟩ :: (litPieces l ++ ps) := rfl
    rw [hl] at h
    cases s with
    | nil =>
      rw [matchHere_lit_nil] at h
      exact absurd h (by simp)
    | cons x xs =>
      rw [matchHere_lit_cons, Bool.and_eq_true, beq_iff_eq] at h
      obtain ⟨hx, hrest⟩ := h
      obtain ⟨t, ht, hm⟩ := ih xs hrest
      exact ⟨t, by simp [hx, ht], hm⟩

theorem starLoop_elim (ok : Char → Bool) (k : Str → Bool) :
    ∀ s, starLoop ok k s = true → ∃ u t, s = u ++ t ∧ k t = true := by
  intro s
  induction s with
  | nil => intro h; exact ⟨[], [], rfl, h⟩
  | cons c cs ih =>
    intro h
    simp only [starLoop, Bool.or_eq_true, Bool.and_eq_true] at h
    rcases h with h | ⟨_, h⟩
    · exact ⟨[], c :: cs, rfl, h⟩
    · obtain ⟨u, t, hs, hk⟩ := ih h
      exact ⟨c :: u, t, by simp [hs], hk⟩

theorem matchAnywhere_elim (ps : List Piece) :
    ∀ s, matchAnywhere ps s = true → ∃ pre t, s = pre ++ t ∧ matchHere ps t = true := by
  intro s
  induction s with
  | nil => intro h; exact ⟨[], [], rfl, h⟩
  | cons c cs ih =>
    intro h
    simp only [matchAnywhere, Bool.or_eq_true] at h
    rcases h with h | h
    · exact ⟨[], c :: cs, rfl, h⟩
    · obtain ⟨pre, t, hs, hm⟩ := ih h
      exact ⟨c :: pre, t, by simp [hs], hm⟩

/-- A text matched by the pattern of Create, for identifiers without special
characters, holds the prefix text with the VPC id and later the suffix text with
the zone id. -/
theorem match_existsPattern (sizeLimit : Str → Option RegexErr)
    (outside : Str → Str → Except RegexErr Bool) (vpc zone m : Str)
    (hv : ∀ c ∈ vpc, c ∉ regexpSpecial) (hz : ∀ c ∈ zone, c ∉ regexpSpecial)
    (hm : (regexpMatch sizeLimit outside (existsPattern vpc zone) m).1 = true) :
    ∃ pre mid post, m = pre ++ conflictPrefix vpc ++ mid ++ conflictSuffix zone ++ post := by
  unfold regexpMatch regexpMatchFragment at hm
  rw [regexpParse_existsPattern vpc zone hv hz] at hm
  have hm2 : matchAnywhere (litPieces (conflictPrefix vpc) ++
      dotStar :: (litPieces (conflictSuffix zone) ++ [dotStar])) m = true := by
    cases hlim : (if (existsPattern vpc zone).length < regexpSafeLength then none
        else sizeLimit (existsPattern vpc zone)) with
    | some e =>
      rw [hlim] at hm
      simp at hm
    | none =>
      rw [hlim] at hm
      simpa using hm
  obtain ⟨pre, t, hpre, h1⟩ := matchAnywhere_elim _ m hm2
  obtain ⟨t2, ht2, h2⟩ := matchHere_lits _ _ t h1
  rw [matchHere_dotStar] at h2
  obtain ⟨mid, t3, ht3, h3⟩ := starLoop_elim _ _ t2 h2
  obtain ⟨t4, ht4, _⟩ := matchHere_lits _ _ t3 h3
  exact ⟨pre, mid, t4, by simp [hpre, ht2, ht3, ht4]⟩


theorem unknown_ne_insync : "UNKNOWN".toList ≠ "INSYNC".toList := by decide

/-- C9, as the code has it: for a zone id and a VPC id that hold none of the
characters special in a pattern, the pattern check of Create reports a match only
if the message holds `ConflictingDomainExists: The VPC `, the VPC id and a space
and, later, ` associated with the hosted zone `, the zone id and a space; and
the cross-account refresh function classifies a re-probe as INSYNC only if the
call failed with such a message. -/
theorem C9_pattern_plain_identifiers (env : Env) (d : ResourceData) (resp : Option Str)
    (hv : ∀ c ∈ d.vpc_id, c ∉ regexpSpecial) (hz : ∀ c ∈ d.zone_id, c ∉ regexpSpecial) :
    (∀ m : Str,
      (regexpMatch env.regexpSizeLimit env.regexpOutside (existsPattern d.vpc_id d.zone_id) m).1 = true →
      ∃ pre mid post, m =
        pre ++ ("ConflictingDomainExists: The VPC ".toList ++ d.vpc_id ++ " ".toList) ++ mid ++
          (" associated with the hosted zone ".toList ++ d.zone_id ++ " ".toList) ++ post) ∧
    (d.cross_account = true → ∀ tr : Trace,
      ((createWaitConf env d resp).refresh tr).1.state = "INSYNC".toList →
      ∃ e pre mid post,
        env.associateVPCWithHostedZone tr.associateCalls.length (associateRequest env d)
          = Except.error e ∧
        e.text =
          pre ++ ("ConflictingDomainExists: The VPC ".toList ++ d.vpc_id ++ " ".toList) ++ mid ++
            (" associated with the hosted zone ".toList ++ d.zone_id ++ " ".toList) ++ post) := by
  have hshape : ∀ m : Str,
      (regexpMatch env.regexpSizeLimit env.regexpOutside (existsPattern d.vpc_id d.zone_id) m).1 = true →
      ∃ pre mid post, m =
        pre ++ ("ConflictingDomainExists: The VPC ".toList ++ d.vpc_id ++ " ".toList) ++ mid ++
          (" associated with the hosted zone ".toList ++ d.zone_id ++ " ".toList) ++ post := by
    intro m hm
    exact match_existsPattern env.regexpSizeLimit env.regexpOutside d.vpc_id d.zone_id m hv hz hm
  refine ⟨hshape, ?_⟩
  intro hcross tr hstate
  rw [createWaitConf_refresh_cross env d resp hcross] at hstate
  cases hcall : env.associateVPCWithHostedZone tr.associateCalls.length
      (associateRequest env d) with
  | ok C =>
    rw [crossAccountRefresh_ok env _ _ tr C hcall] at hstate
    exact absurd hstate pending_ne_insync
  | error e =>
    cases hm : (regexpMatch env.regexpSizeLimit env.regexpOutside (existsPattern d.vpc_id d.zone_id) e.text).1 with
    | false =>
      rw [crossAccountRefresh_other env _ _ tr e hcall hm] at hstate
      exact absurd hstate unknown_ne_insync
    | true =>
      obtain ⟨pre, mid, post, h⟩ := hshape e.text hm
      exact ⟨e, pre, mid, post, rfl, h⟩

set_option maxRecDepth 100000 in
theorem C9_pattern_plain_identifiers_witness :
    ∃ pre mid post, conflictErr.text =
      pre ++ ("ConflictingDomainExists: The VPC ".toList ++ "vpc-1".toList ++ " ".toList) ++ mid ++
        (" associated with the hosted zone ".toList ++ "Z1".toList ++ " ".toList) ++ post :=
  (C9_pattern_plain_identifiers conflictEnv crossAccountData none
    (by decide) (by decide)).1 conflictErr.text (by decide)

set_option maxRecDepth 100000 in
/-- C9, as stated, fails: with the VPC id `vpc.1` the pattern check reports a
match on a conflict message that names the VPC `vpc-1`, a message that does not
hold `ConflictingDomainExists: The VPC vpc.1`; the re-probe is classified
INSYNC and Create returns no error. -/
theorem C9_counterexample :
    (regexpMatch conflictEnv.regexpSizeLimit conflictEnv.regexpOutside
        (existsPattern dotPatternData.vpc_id dotPatternData.zone_id) conflictErr.text).1
      = true ∧
    ¬ ("ConflictingDomainExists: The VPC ".toList ++ dotPatternData.vpc_id
        <:+: conflictErr.text) ∧
    (crossAccountRefresh conflictEnv (associateRequest conflictEnv dotPatternData)
        (existsPattern dotPatternData.vpc_id dotPatternData.zone_id)
        ⟨[associateRequest conflictEnv dotPatternData], []⟩).1.state = "INSYNC".toList ∧
    (resourceAwsRoute53ZoneAssociationCreate conflictEnv dotPatternData).1 = none := by
  refine ⟨by decide, ?_, by decide, by decide⟩
  intro h
  have hdot : '.' ∈ conflictErr.text :=
    h.subset (by decide)
  exact absurd hdot (by decide)

end Route53
